import Mathlib

/-
Verification of the whisper peer-to-peer messaging node.

The development shallowly embeds the parts of the Go source that the
properties below talk about:

* the SQLite store (`storage.SQLiteStorage`, file storage/sqlite.go):
  each table becomes a list of row structures, AUTOINCREMENT ids become
  explicit counters, and SQL `CURRENT_TIMESTAMP` becomes an explicit
  `now : Nat` argument;
* the friends engine (`friends.Manager`; the current version of
  friends/manager.go, the one bundled with the CLI entry point in
  src/main.go, which carries the placeholder-reconciliation logic that the
  repository's phase documentation describes);
* the direct-message engine (`messages.Manager`, messages/manager.go);
* the conference engine (`conference.Manager`, conference/manager.go);
* registration (`auth.AuthService.Register`, auth/auth.go, invoked by
  `App.Register` in app.go with the node's own peer id).

Machine integers (int64 ids, Unix timestamps) are modelled as `Nat`;
nullable timestamp columns as `Option Nat`; fallible store calls as
`Except`.  Network effects (stream opens, wire writes, connectedness) are
modelled by explicit boolean parameters, and `SendMessage` additionally
returns the list of side-effect events in program order so that ordering
properties can be stated.
-/

namespace Storage

/-- A row of the `users` table.  Columns follow the schema in initSchema:
username and peer_id carry UNIQUE constraints. -/
structure User where
  id : Nat
  username : String
  passwordHash : String
  fullName : String
  peerId : String
  createdAt : Nat
  updatedAt : Nat
deriving DecidableEq

/-- A row of the `friends` table.  UNIQUE(user_id, friend_id); accepted_at
is nullable. -/
structure Friend where
  id : Nat
  userId : Nat
  friendId : Nat
  peerId : String
  username : String
  fullName : String
  status : String
  createdAt : Nat
  acceptedAt : Option Nat
deriving DecidableEq

/-- A row of the `messages` table.  delivered_at and read_at are nullable. -/
structure Message where
  id : Nat
  fromUserId : Nat
  toUserId : Nat
  fromPeerId : String
  toPeerId : String
  content : String
  delivered : Bool
  read : Bool
  createdAt : Nat
  deliveredAt : Option Nat
  readAt : Option Nat
deriving DecidableEq

/-- A row of the `conference_messages` table. -/
structure ConferenceMessage where
  id : Nat
  conferenceId : Nat
  fromUserId : Nat
  fromPeerId : String
  content : String
  createdAt : Nat
deriving DecidableEq

/-- The values the Go code passes to `SaveMessage`.  The INSERT statement
lists only from_user_id, to_user_id, from_peer_id, to_peer_id, content,
delivered and read, so the struct's CreatedAt field never reaches the
database; created_at takes the column default (the current time). -/
structure MessageInsert where
  fromUserId : Nat
  toUserId : Nat
  fromPeerId : String
  toPeerId : String
  content : String
  delivered : Bool
  read : Bool
  createdAt : Nat
deriving DecidableEq

/-- The values the Go code passes to `SaveConferenceMessage`.  The INSERT
lists only conference_id, from_user_id, from_peer_id and content, so the
struct's CreatedAt field never reaches the database; created_at takes the
column default (the current time). -/
structure ConferenceMessageInsert where
  conferenceId : Nat
  fromUserId : Nat
  fromPeerId : String
  content : String
  createdAt : Nat
deriving DecidableEq

/-- The state of the SQLite database: the table contents plus the next
AUTOINCREMENT id of each table the claims touch. -/
structure Store where
  users : List User
  friends : List Friend
  messages : List Message
  confMessages : List ConferenceMessage
  nextUserId : Nat
  nextFriendId : Nat
  nextMessageId : Nat
  nextConfMessageId : Nat
deriving DecidableEq

/-- The UNIQUE-constraint violations of the schema that the embedded
operations can hit. -/
inductive DbError
  | uniqueUsername
  | uniquePeerId
  | uniqueFriendPair
deriving DecidableEq

/-- CreateUser: INSERT INTO users (username, password_hash, full_name,
peer_id); fails when the UNIQUE constraint on username or on peer_id is
violated; assigns the next id.  created_at and updated_at take the column
default (the current time). -/
def CreateUser (s : Store) (username passwordHash fullName peerId : String)
    (now : Nat) : Except DbError (Store × User) :=
  if s.users.any (fun u => u.username == username) then .error .uniqueUsername
  else if s.users.any (fun u => u.peerId == peerId) then .error .uniquePeerId
  else
    let row : User :=
      ⟨s.nextUserId, username, passwordHash, fullName, peerId, now, now⟩
    .ok ({ s with users := s.users ++ [row], nextUserId := s.nextUserId + 1 }, row)

/-- GetUserByID: SELECT ... FROM users WHERE id = ?; no row gives None. -/
def GetUserByID (s : Store) (id : Nat) : Option User :=
  s.users.find? (fun u => u.id == id)

/-- GetUserByUsername: SELECT ... FROM users WHERE username = ?; no row
gives None (sql.ErrNoRows is mapped to (nil, nil)). -/
def GetUserByUsername (s : Store) (username : String) : Option User :=
  s.users.find? (fun u => u.username == username)

/-- GetUserByPeerID: SELECT ... FROM users WHERE peer_id = ?; no row gives
None. -/
def GetUserByPeerID (s : Store) (peerId : String) : Option User :=
  s.users.find? (fun u => u.peerId == peerId)

/-- UpdateUser: UPDATE users SET password_hash = ?, full_name = ?,
peer_id = ?, updated_at = ? WHERE id = ?.  The username column is NOT in
the SET list.  Moving peer_id onto another row's value violates the UNIQUE
constraint. -/
def UpdateUser (s : Store) (u : User) (now : Nat) : Except DbError Store :=
  if s.users.any (fun r => r.id != u.id && r.peerId == u.peerId) then
    .error .uniquePeerId
  else
    .ok { s with
      users := s.users.map (fun r =>
        if r.id == u.id then
          { r with passwordHash := u.passwordHash, fullName := u.fullName,
                   peerId := u.peerId, updatedAt := now }
        else r) }

/-- CreateFriendRequest: INSERT INTO friends (user_id, friend_id, peer_id,
username, full_name, status); fails on UNIQUE(user_id, friend_id); the
accepted_at column is not in the INSERT, so it is NULL whatever the Go
struct carried. -/
def CreateFriendRequest (s : Store) (userId friendId : Nat)
    (peerId username fullName status : String) (now : Nat) :
    Except DbError (Store × Friend) :=
  if s.friends.any (fun f => f.userId == userId && f.friendId == friendId) then
    .error .uniqueFriendPair
  else
    let row : Friend :=
      ⟨s.nextFriendId, userId, friendId, peerId, username, fullName, status, now, none⟩
    .ok ({ s with friends := s.friends ++ [row], nextFriendId := s.nextFriendId + 1 }, row)

/-- GetFriendRequest: SELECT ... FROM friends WHERE user_id = ? AND
friend_id = ?; no row gives None. -/
def GetFriendRequest (s : Store) (userId friendId : Nat) : Option Friend :=
  s.friends.find? (fun f => f.userId == userId && f.friendId == friendId)

/-- UpdateFriendRequest: UPDATE friends SET status = ?, accepted_at = ?
WHERE id = ?.  Only status and accepted_at are written; the cached
username/full_name columns are untouched even when the Go caller mutated
those struct fields. -/
def UpdateFriendRequest (s : Store) (f : Friend) : Store :=
  { s with friends := s.friends.map (fun r =>
      if r.id == f.id then { r with status := f.status, acceptedAt := f.acceptedAt }
      else r) }

/-- SaveMessage: INSERT INTO messages (from_user_id, to_user_id,
from_peer_id, to_peer_id, content, delivered, read); created_at takes the
column default, i.e. the current time, not the struct's CreatedAt;
delivered_at and read_at start NULL. -/
def SaveMessage (s : Store) (m : MessageInsert) (now : Nat) : Store × Message :=
  let row : Message :=
    ⟨s.nextMessageId, m.fromUserId, m.toUserId, m.fromPeerId, m.toPeerId,
     m.content, m.delivered, m.read, now, none, none⟩
  ({ s with messages := s.messages ++ [row], nextMessageId := s.nextMessageId + 1 }, row)

/-- MarkMessageDelivered: UPDATE messages SET delivered = 1,
delivered_at = CURRENT_TIMESTAMP WHERE id = ?.  The timestamp is written
unconditionally, not only when it was NULL. -/
def MarkMessageDelivered (s : Store) (messageId : Nat) (now : Nat) : Store :=
  { s with messages := s.messages.map (fun m =>
      if m.id == messageId then { m with delivered := true, deliveredAt := some now }
      else m) }

/-- MarkMessageRead: UPDATE messages SET read = 1,
read_at = CURRENT_TIMESTAMP WHERE id = ?.  The timestamp is written
unconditionally, not only when it was NULL. -/
def MarkMessageRead (s : Store) (messageId : Nat) (now : Nat) : Store :=
  { s with messages := s.messages.map (fun m =>
      if m.id == messageId then { m with read := true, readAt := some now }
      else m) }

/-- SaveConferenceMessage: INSERT INTO conference_messages (conference_id,
from_user_id, from_peer_id, content); created_at takes the column default,
i.e. the current time — the struct's CreatedAt field is dropped. -/
def SaveConferenceMessage (s : Store) (m : ConferenceMessageInsert) (now : Nat) :
    Store × ConferenceMessage :=
  let row : ConferenceMessage :=
    ⟨s.nextConfMessageId, m.conferenceId, m.fromUserId, m.fromPeerId, m.content, now⟩
  ({ s with confMessages := s.confMessages ++ [row],
            nextConfMessageId := s.nextConfMessageId + 1 }, row)

end Storage

namespace Friends

/-- Wire payload of friend/request (FriendRequestMessage in protocol.go). -/
structure FriendRequestMessage where
  fromUsername : String
  fromFullName : String
  fromPeerId : String
  message : String
deriving DecidableEq

/-- Wire payload of friend/accept and friend/reject (FriendResponseMessage
in protocol.go). -/
structure FriendResponseMessage where
  accepted : Bool
  username : String
  fullName : String
  peerId : String
  message : String
deriving DecidableEq

/-- Outcome of Manager.SendFriendRequest.  Store mutations that already
happened persist even when a later step fails, so the store is returned
alongside the outcome. -/
inductive SendRequestOutcome
  | notAuthenticated
  | cannotAddSelf
  | placeholderFailed
  | alreadyFriends
  | pendingRequest
  | createFailed
  | streamFailed
  | ok
deriving DecidableEq

/-- Manager.SendFriendRequest (current friends/manager.go, the version
bundled in src/main.go): reject self-send; look up the target by peer id
and, when absent, create a placeholder user whose username is
"unknown_" ++ peer id (re-reading by peer id if that insert fails); refuse
when a friendship row requester→target already exists; insert the pending
row; then open the friend/request stream (`streamOk` stands for the stream
open + write succeeding — on failure the pending row remains). -/
def SendFriendRequest (s : Storage.Store) (currentUserId : Nat)
    (currentUser : Storage.User) (targetPeerId : String) (streamOk : Bool)
    (now : Nat) : Storage.Store × SendRequestOutcome :=
  if currentUserId == 0 then (s, .notAuthenticated)
  else if targetPeerId == currentUser.peerId then (s, .cannotAddSelf)
  else
    let target? : Option (Storage.Store × Storage.User) :=
      match Storage.GetUserByPeerID s targetPeerId with
      | some t => some (s, t)
      | none =>
        match Storage.CreateUser s ("unknown_" ++ targetPeerId)
            "P2P_REMOTE_USER" "Unknown User" targetPeerId now with
        | .ok (s1, t) => some (s1, t)
        | .error _ =>
          match Storage.GetUserByPeerID s targetPeerId with
          | some t => some (s, t)
          | none => none
    match target? with
    | none => (s, .placeholderFailed)
    | some (s1, target) =>
      match Storage.GetFriendRequest s1 currentUser.id target.id with
      | some existing =>
        if existing.status == "accepted" then (s1, .alreadyFriends)
        else (s1, .pendingRequest)
      | none =>
        match Storage.CreateFriendRequest s1 currentUser.id target.id
            target.peerId target.username target.fullName "pending" now with
        | .error _ => (s1, .createFailed)
        | .ok (s2, _) =>
          if streamOk then (s2, .ok) else (s2, .streamFailed)

/-- Manager.handleIncomingRequest: upsert the sender by username — find by
username, else insert a new user row from the request fields (on insert
failure the handler logs and returns, dropping the request).  There is no
lookup by peer id here.  Then, with a session active, insert the pending
sender→me friendship row unless one already exists. -/
def handleIncomingRequest (s : Storage.Store) (currentUserId : Nat)
    (req : FriendRequestMessage) (now : Nat) : Storage.Store :=
  let fromUser? : Option (Storage.Store × Storage.User) :=
    match Storage.GetUserByUsername s req.fromUsername with
    | some u => some (s, u)
    | none =>
      match Storage.CreateUser s req.fromUsername "P2P_REMOTE_USER"
          req.fromFullName req.fromPeerId now with
      | .ok (s1, u) => some (s1, u)
      | .error _ => none
  match fromUser? with
  | none => s
  | some (s1, fromUser) =>
    if currentUserId == 0 then s1
    else
      match Storage.GetUserByID s1 currentUserId with
      | none => s1
      | some currentUser =>
        if 0 < fromUser.id then
          match Storage.GetFriendRequest s1 fromUser.id currentUser.id with
          | some _ => s1
          | none =>
            match Storage.CreateFriendRequest s1 fromUser.id currentUser.id
                fromUser.peerId fromUser.username fromUser.fullName "pending" now with
            | .ok (s2, _) => s2
            | .error _ => s1
        else s1

/-- The upsert block at the top of Manager.handleIncomingAccept: resolve
the accepting user by username; else by peer id, in which case the
in-memory struct gets the response's username and full name and UpdateUser
persists what its SQL covers (full_name but not username), continuing on a
warning if the update fails; else insert a new row, returning early (None)
if that insert fails. -/
def upsertAccepter (s : Storage.Store) (resp : FriendResponseMessage)
    (now : Nat) : Option (Storage.Store × Storage.User) :=
  match Storage.GetUserByUsername s resp.username with
  | some u => some (s, u)
  | none =>
    match Storage.GetUserByPeerID s resp.peerId with
    | some u =>
      let u1 := { u with username := resp.username, fullName := resp.fullName }
      match Storage.UpdateUser s u1 now with
      | .ok s1 => some (s1, u1)
      | .error _ => some (s, u1)
    | none =>
      match Storage.CreateUser s resp.username "P2P_REMOTE_USER"
          resp.fullName resp.peerId now with
      | .ok (s1, u) => some (s1, u)
      | .error _ => none

/-- Manager.handleIncomingAccept (current friends/manager.go, the version
bundled in src/main.go): upsert the accepter; with a session active, if the
me→accepter row exists and is pending, update it to accepted with
accepted_at = now; then, if the accepter→me row is absent, insert it with
status accepted (the reciprocal INSERT does not carry accepted_at). -/
def handleIncomingAccept (s : Storage.Store) (currentUserId : Nat)
    (resp : FriendResponseMessage) (now : Nat) : Storage.Store :=
  match upsertAccepter s resp now with
  | none => s
  | some (s1, accepter) =>
    if currentUserId == 0 then s1
    else
      match Storage.GetUserByID s1 currentUserId with
      | none => s1
      | some _currentUser =>
        let s2 :=
          match Storage.GetFriendRequest s1 currentUserId accepter.id with
          | some existing =>
            if existing.status == "pending" then
              Storage.UpdateFriendRequest s1
                { existing with status := "accepted", acceptedAt := some now }
            else s1
          | none => s1
        match Storage.GetFriendRequest s2 accepter.id currentUserId with
        | some _ => s2
        | none =>
          match Storage.CreateFriendRequest s2 accepter.id currentUserId
              accepter.peerId accepter.username accepter.fullName "accepted" now with
          | .ok (s3, _) => s3
          | .error _ => s2

end Friends

namespace Messages

/-- Wire payload of message/direct (DirectMessage in messages/protocol.go). -/
structure DirectMessage where
  messageId : Nat
  fromUsername : String
  fromFullName : String
  fromPeerId : String
  toUsername : String
  content : String
  timestamp : Nat
deriving DecidableEq

/-- Wire payload of message/ack and message/read (MessageAck / MessageRead
in messages/protocol.go). -/
structure MessageAck where
  messageId : Nat
  fromPeer : String
  toPeer : String
  timestamp : Nat
deriving DecidableEq

/-- Side effects of Manager.SendMessage in the order the code performs
them: the database save, the attempt to open the stream, the attempt to
write the wire message, and the delivered-mark. -/
inductive SendEvent
  | savedMessage (id : Nat)
  | streamAttempt
  | sendAttempt (id : Nat)
  | markedDelivered (id : Nat)
deriving DecidableEq

/-- Outcome of Manager.SendMessage.  `panicked` is the nil-pointer
dereference the Go code reaches when GetUserByUsername returns (nil, nil)
for the recipient and `toUser.ID` is read anyway. -/
inductive SendMessageOutcome
  | panicked
  | notFriends
  | savedBadPeerId
  | savedOffline
  | savedStreamFailed
  | savedSendFailed
  | sent
deriving DecidableEq

/-- Manager.SendMessage (messages/manager.go): look up the recipient
(missing row flows into a nil dereference), require an accepted friendship
in either direction, persist the row with delivered = false, then — if the
stored peer id decodes (`peerDecodeOk`) and the peer is connected — open a
stream and send; on wire success MarkMessageDelivered is called at once.
The returned event list records the side effects in program order. -/
def SendMessage (s : Storage.Store) (currentUser : Storage.User)
    (toUsername content : String)
    (peerDecodeOk connected streamOk sendOk : Bool) (now : Nat) :
    Storage.Store × SendMessageOutcome × List SendEvent :=
  match Storage.GetUserByUsername s toUsername with
  | none => (s, .panicked, [])
  | some toUser =>
    let friendOk :=
      (match Storage.GetFriendRequest s currentUser.id toUser.id with
       | some f => f.status == "accepted"
       | none => false) ||
      (match Storage.GetFriendRequest s toUser.id currentUser.id with
       | some f => f.status == "accepted"
       | none => false)
    if !friendOk then (s, .notFriends, [])
    else
      let sr := Storage.SaveMessage s
        ⟨currentUser.id, toUser.id, currentUser.peerId, toUser.peerId,
         content, false, false, now⟩ now
      let s1 := sr.1
      let row := sr.2
      if !peerDecodeOk then (s1, .savedBadPeerId, [.savedMessage row.id])
      else if !connected then (s1, .savedOffline, [.savedMessage row.id])
      else if !streamOk then
        (s1, .savedStreamFailed, [.savedMessage row.id, .streamAttempt])
      else if !sendOk then
        (s1, .savedSendFailed,
         [.savedMessage row.id, .streamAttempt, .sendAttempt row.id])
      else
        (Storage.MarkMessageDelivered s1 row.id now, .sent,
         [.savedMessage row.id, .streamAttempt, .sendAttempt row.id,
          .markedDelivered row.id])

/-- Manager.handleIncomingMessage (messages/manager.go): look up sender and
recipient by username.  The Go code only checks the error value, and the
SQLite store returns (nil, nil) for a missing row, so a missing user makes
the subsequent `fromUser.ID` / `toUser.ID` field reads dereference a nil
pointer — modelled as `none` (panic).  Otherwise the row is saved with
delivered = true, marked delivered, and an ack carrying the wire message id
is attempted (`ackOk`); the result carries whether the ack was sent. -/
def handleIncomingMessage (s : Storage.Store) (msg : DirectMessage)
    (ackOk : Bool) (now : Nat) : Option (Storage.Store × Bool) :=
  match Storage.GetUserByUsername s msg.fromUsername,
        Storage.GetUserByUsername s msg.toUsername with
  | some fromUser, some toUser =>
    let sr := Storage.SaveMessage s
      ⟨fromUser.id, toUser.id, fromUser.peerId, toUser.peerId,
       msg.content, true, false, msg.timestamp⟩ now
    let s2 := Storage.MarkMessageDelivered sr.1 sr.2.id now
    some (s2, ackOk)
  | _, _ => none

/-- Manager.handleMessageAck (messages/manager.go): when the ack carries a
positive message id, MarkMessageDelivered on the local store. -/
def handleMessageAck (s : Storage.Store) (ack : MessageAck) (now : Nat) :
    Storage.Store :=
  if 0 < ack.messageId then Storage.MarkMessageDelivered s ack.messageId now
  else s

end Messages

namespace Conference

/-- Wire payload published on a conference topic (ConferenceGossipMessage
in conference/protocol.go). -/
structure ConferenceGossipMessage where
  conferenceId : Nat
  fromUsername : String
  fromFullName : String
  fromPeerId : String
  content : String
  timestamp : Nat
deriving DecidableEq

/-- One message delivered by a gossip subscription: the peer it was
received from and the decoded JSON body (`none` for a decode failure). -/
structure GossipEnvelope where
  receivedFrom : String
  decoded : Option ConferenceGossipMessage
deriving DecidableEq

/-- The in-memory part of conference.Manager that tracks pub/sub state:
the conference ids holding a topic handle and those holding an active
subscription. -/
structure Manager where
  store : Storage.Store
  subscriptions : List Nat
  topics : List Nat
deriving DecidableEq

/-- Manager.SubscribeToConference: a no-op when a subscription for the
conference already exists; otherwise joins the topic, subscribes, records
both handles, and spawns the listener. -/
def SubscribeToConference (m : Manager) (conferenceId : Nat) : Manager :=
  if m.subscriptions.contains conferenceId then m
  else { m with subscriptions := conferenceId :: m.subscriptions,
                topics := conferenceId :: m.topics }

/-- One iteration of the receive loop in Manager.listenToConference,
running for the subscription of `conferenceId`: drop self-echoes
(received_from = local peer id) and undecodable payloads; otherwise
resolve from_user_id by the payload's peer id (0 when unknown) and persist
a ConferenceMessage row built from the payload — including the payload's
conference_id, which is not checked against `conferenceId`. -/
def listenToConferenceStep (s : Storage.Store) (localPeerId : String)
    (conferenceId : Nat) (env : GossipEnvelope) (now : Nat) : Storage.Store :=
  if env.receivedFrom == localPeerId then s
  else
    match env.decoded with
    | none => s
    | some g =>
      let fromUserId :=
        match Storage.GetUserByPeerID s g.fromPeerId with
        | some u => u.id
        | none => 0
      let _ := conferenceId
      (Storage.SaveConferenceMessage s
        ⟨g.conferenceId, fromUserId, g.fromPeerId, g.content, g.timestamp⟩ now).1

end Conference

namespace Auth

/-- Errors of AuthService.Register (auth/auth.go). -/
inductive RegisterError
  | usernameRequired
  | passwordRequired
  | weakPassword
  | fullNameRequired
  | peerIdRequired
  | userExists
  | db (e : Storage.DbError)
deriving DecidableEq

/-- AuthService.Register: validate the inputs (password at least 8
characters), refuse when the username is already taken, hash the password
(bcrypt, modelled as an arbitrary `hashFn`), and CreateUser.  App.Register
always passes the node's own peer id as `peerId`. -/
def Register (s : Storage.Store) (username password fullName peerId : String)
    (hashFn : String → String) (now : Nat) :
    Except RegisterError Storage.Store :=
  if username == "" then .error .usernameRequired
  else if password == "" then .error .passwordRequired
  else if password.length < 8 then .error .weakPassword
  else if fullName == "" then .error .fullNameRequired
  else if peerId == "" then .error .peerIdRequired
  else
    match Storage.GetUserByUsername s username with
    | some _ => .error .userExists
    | none =>
      match Storage.CreateUser s username (hashFn password) fullName peerId now with
      | .ok (s1, _) => .ok s1
      | .error e => .error (.db e)

end Auth

/-! Concrete fixtures used to evaluate the embedded operations on small
inputs. -/

/-- An empty database, as initSchema leaves it. -/
def emptyStore : Storage.Store := ⟨[], [], [], [], 1, 1, 1, 1⟩

/-- A locally registered account "alice" on peer PA. -/
def aliceU : Storage.User := ⟨1, "alice", "ha", "Alice", "PA", 0, 0⟩

/-- A remote user "bob" on peer PB, known from a friend request. -/
def bobRemoteU : Storage.User := ⟨2, "bob", "P2P_REMOTE_USER", "Bob", "PB", 0, 0⟩

/-- A pending friendship row alice→bob, as SendFriendRequest leaves it. -/
def pendingAB : Storage.Friend := ⟨1, 1, 2, "PB", "bob", "Bob", "pending", 0, none⟩

/-- Store of a node where alice sent bob a friend request that is still
pending. -/
def c1Store : Storage.Store := ⟨[aliceU, bobRemoteU], [pendingAB], [], [], 3, 2, 1, 1⟩

/-- The friend/accept payload with which bob accepts. -/
def c1Resp : Friends.FriendResponseMessage := ⟨true, "bob", "Bob", "PB", "ok"⟩

/-- Store of a node that only knows the local account "bob". -/
def c2Store : Storage.Store := ⟨[⟨1, "bob", "hb", "Bob", "PB", 0, 0⟩], [], [], [], 2, 1, 1, 1⟩

/-- A direct message whose sender has no user row on the receiving node. -/
def c2Msg : Messages.DirectMessage := ⟨7, "ghost", "Ghost", "PG", "bob", "boo", 3⟩

/-- A registered "bob" account used as a message recipient. -/
def bobLocalU : Storage.User := ⟨2, "bob", "hb", "Bob", "PB", 0, 0⟩

/-- An accepted friendship row alice→bob. -/
def acceptedAB : Storage.Friend := ⟨1, 1, 2, "PB", "bob", "Bob", "accepted", 0, some 0⟩

/-- Store of a node where alice and bob are friends. -/
def msgStore : Storage.Store := ⟨[aliceU, bobLocalU], [acceptedAB], [], [], 3, 2, 1, 1⟩

/-- Store for the placeholder-collision scenario: alice plus a placeholder
row for peer PB created by an earlier outbound request. -/
def c5Store : Storage.Store :=
  ⟨[aliceU, ⟨2, "unknown_PB", "P2P_REMOTE_USER", "Unknown User", "PB", 0, 0⟩],
   [], [], [], 3, 1, 1, 1⟩

/-- An inbound friend request from the peer behind the placeholder, now
carrying its real username. -/
def c5Req : Friends.FriendRequestMessage := ⟨"bob", "Bob", "PB", "hi"⟩

/-- Store holding one undelivered direct message with id 1. -/
def c6Store : Storage.Store :=
  ⟨[], [], [⟨1, 1, 2, "PA", "PB", "hi", false, false, 0, none, none⟩], [], 1, 1, 2, 1⟩

/-- A conference manager that subscribed to conference 1 and nothing else. -/
def c7Mgr : Conference.Manager := Conference.SubscribeToConference ⟨emptyStore, [], []⟩ 1

/-- A gossip envelope received on conference 1's subscription whose payload
claims to belong to conference 2. -/
def c7Env : Conference.GossipEnvelope := ⟨"PX", some ⟨2, "mallory", "Mallory", "PM", "spoof", 4⟩⟩

/-- A gossip envelope carrying sender timestamp 1000. -/
def c8Env : Conference.GossipEnvelope := ⟨"PX", some ⟨1, "bob", "Bob", "PB", "hi", 1000⟩⟩

/-- Store for the friend-request-to-unknown-peer scenario: only alice. -/
def c4Store : Storage.Store := ⟨[aliceU], [], [], [], 2, 1, 1, 1⟩

/-- The store after a successful first registration of "alice" on a node
whose peer id is P (password hashing modelled by the identity function in
the witness). -/
def c10S1 : Storage.Store :=
  ⟨[⟨1, "alice", "password1", "Alice S", "P", 0, 0⟩], [], [], [], 2, 1, 1, 1⟩

/-! Helper lemmas about the embedded store operations. -/

/-- A failed find? makes the matching any false. -/
theorem any_eq_false_of_find?_eq_none {α} (p : α → Bool) (l : List α)
    (h : l.find? p = none) : l.any p = false := by
  simp only [List.any_eq_false]
  rw [List.find?_eq_none] at h
  simpa using h

/-- UpdateFriendRequest only rewrites status and accepted_at of the row
with the given id, so GetFriendRequest afterwards returns the patched row. -/
theorem getFriendRequest_updateFriendRequest (s : Storage.Store)
    (f : Storage.Friend) (u v : Nat) :
    Storage.GetFriendRequest (Storage.UpdateFriendRequest s f) u v =
      (Storage.GetFriendRequest s u v).map (fun r =>
        if r.id == f.id then { r with status := f.status, acceptedAt := f.acceptedAt }
        else r) := by
  simp only [Storage.GetFriendRequest, Storage.UpdateFriendRequest]
  have hp : ((fun r : Storage.Friend => r.userId == u && r.friendId == v) ∘
      (fun r => if r.id == f.id then
        { r with status := f.status, acceptedAt := f.acceptedAt } else r)) =
      (fun r : Storage.Friend => r.userId == u && r.friendId == v) := by
    funext r
    by_cases h : (r.id == f.id) <;> simp [Function.comp, h]
  rw [List.find?_map, hp]

/-! Claim theorems. -/

/-- C2: evaluation at the failing input.  On a node that knows only the
local account "bob", an inbound direct message whose from_username has no
user row is not dropped with a log line: the handler result is `none`,
i.e. the Go code reaches `fromUser.ID` on a nil pointer and panics (the
store lookup returned no-row as (nil, nil) and only the error was
checked). -/
theorem c2_unknown_sender_reaches_nil_dereference :
    Messages.handleIncomingMessage c2Store c2Msg true 5 = none := rfl

/-- C3: counter-evaluation at a concrete input.  alice sends "hi" to her
friend bob while bob is connected and the stream send succeeds; no ack has
been received, yet the sender's only DirectMessage row already has
delivered = true with delivered_at = the send time, because SendMessage
calls MarkMessageDelivered immediately after the wire write. -/
theorem c3_delivered_set_at_send_without_ack :
    ((Messages.SendMessage msgStore aliceU "bob" "hi" true true true true 9).1.messages.map
      (fun m => (m.delivered, m.deliveredAt))) = [(true, some 9)] ∧
    (Messages.SendMessage msgStore aliceU "bob" "hi" true true true true 9).2.1 =
      Messages.SendMessageOutcome.sent := ⟨rfl, rfl⟩

/-- C5 counterexample: a friend request from the peer behind a placeholder
row (synthetic username "unknown_PB"), now carrying the real username
"bob", does not upgrade the placeholder: the user insert collides with the
peer_id UNIQUE constraint, the handler drops the request, and the store is
left unchanged with the placeholder still named "unknown_PB". -/
theorem c5_placeholder_not_upgraded_on_request :
    Friends.handleIncomingRequest c5Store 1 c5Req 7 = c5Store ∧
    (Storage.GetUserByPeerID c5Store "PB").map (fun u => u.username) =
      some "unknown_PB" := ⟨rfl, rfl⟩

/-- C6 counterexample: calling MarkMessageDelivered a second time, at a
later current time, does not leave the row exactly as the first call left
it — delivered_at is overwritten with the new time. -/
theorem c6_second_mark_changes_timestamp :
    Storage.MarkMessageDelivered (Storage.MarkMessageDelivered c6Store 1 3) 1 5 ≠
      Storage.MarkMessageDelivered c6Store 1 3 := by decide

/-- C6 amended: mark_delivered and mark_read are idempotent on the flag
but overwrite the timestamp with the current time of each call, so the
later call wins; calls at the same instant are idempotent. -/
theorem c6_amended_second_call_overwrites (s : Storage.Store) (id t₁ t₂ : Nat) :
    Storage.MarkMessageDelivered (Storage.MarkMessageDelivered s id t₁) id t₂ =
      Storage.MarkMessageDelivered s id t₂ ∧
    Storage.MarkMessageRead (Storage.MarkMessageRead s id t₁) id t₂ =
      Storage.MarkMessageRead s id t₂ := by
  constructor
  · cases s
    simp only [Storage.MarkMessageDelivered, List.map_map]
    congr 1
    refine List.map_congr_left (fun m _ => ?_)
    by_cases h : m.id = id <;> simp [h]
  · cases s
    simp only [Storage.MarkMessageRead, List.map_map]
    congr 1
    refine List.map_congr_left (fun m _ => ?_)
    by_cases h : m.id = id <;> simp [h]

/-- C7 counterexample: a node that subscribed only to conference 1 runs
one listener iteration on that subscription for a gossip envelope whose
payload names conference 2; the persisted ConferenceMessage row belongs to
conference 2, which the node never subscribed to. -/
theorem c7_row_for_unsubscribed_conference :
    ((Conference.listenToConferenceStep c7Mgr.store "PL" 1 c7Env 9).confMessages.map
      (fun m => m.conferenceId)) = [2] ∧
    c7Mgr.subscriptions = [1] ∧ ¬ (2 ∈ c7Mgr.subscriptions) :=
  ⟨rfl, rfl, by decide⟩

/-- C7 amended: every gossip message ingested by a subscription (not a
self-echo, decodable) appends exactly one ConferenceMessage row whose
conference_id is the conference_id carried in the payload — the
subscription's own conference id is not consulted, so rows for
never-subscribed conferences are possible. -/
theorem c7_amended_row_uses_payload_conference (s : Storage.Store)
    (lp : String) (cid : Nat) (env : Conference.GossipEnvelope)
    (g : Conference.ConferenceGossipMessage) (now : Nat)
    (h1 : env.receivedFrom ≠ lp) (h2 : env.decoded = some g) :
    ∃ r, (Conference.listenToConferenceStep s lp cid env now).confMessages =
        s.confMessages ++ [r] ∧ r.conferenceId = g.conferenceId := by
  have hb : (env.receivedFrom == lp) = false := beq_eq_false_iff_ne.mpr h1
  simp only [Conference.listenToConferenceStep, hb, Bool.false_eq_true, if_false,
    h2, Storage.SaveConferenceMessage]
  exact ⟨_, rfl, rfl⟩

/-- C7 amended, witness: the amended statement at the concrete
counterexample input. -/
theorem c7_amended_witness :
    ∃ r, (Conference.listenToConferenceStep c7Mgr.store "PL" 1 c7Env 9).confMessages =
        c7Mgr.store.confMessages ++ [r] ∧
        r.conferenceId = (2 : Nat) :=
  c7_amended_row_uses_payload_conference c7Mgr.store "PL" 1 c7Env
    ⟨2, "mallory", "Mallory", "PM", "spoof", 4⟩ 9 (by decide) rfl

/-- C8: evaluation at the failing input.  A gossip message carrying sender
timestamp 1000 is ingested at local time 2000; the persisted row's
created_at is 2000 (the SQLite column default), not the payload timestamp,
because SaveConferenceMessage's INSERT omits created_at even though the
manager filled the struct field from the payload. -/
theorem c8_created_at_is_local_receive_time :
    ((Conference.listenToConferenceStep emptyStore "PL" 1 c8Env 2000).confMessages.map
      (fun m => m.createdAt)) = [2000] ∧ (2000 : Nat) ≠ 1000 := ⟨rfl, by decide⟩

/-- C5 amended: the friend-request handler upserts the sender by username
only (find by username, else insert); there is no find-by-peer_id upgrade.
When the sender's username is unknown but their peer_id already belongs to
an existing row, the user insert hits the peer_id UNIQUE constraint and
the handler drops the request, leaving the store entirely unchanged — so
no duplicate user rows are created, but the placeholder is not upgraded
either. -/
theorem c5_amended_peerid_collision_drops_request (s : Storage.Store)
    (uid : Nat) (req : Friends.FriendRequestMessage) (now : Nat)
    (h1 : Storage.GetUserByUsername s req.fromUsername = none)
    (h2 : s.users.any (fun u => u.peerId == req.fromPeerId) = true) :
    Friends.handleIncomingRequest s uid req now = s := by
  have ha : s.users.any (fun u => u.username == req.fromUsername) = false :=
    any_eq_false_of_find?_eq_none _ _ h1
  simp [Friends.handleIncomingRequest, h1, Storage.CreateUser, ha, h2]

/-- C5 amended, witness: the amended statement at the placeholder-collision
input. -/
theorem c5_amended_witness :
    Friends.handleIncomingRequest c5Store 1 c5Req 7 = c5Store :=
  c5_amended_peerid_collision_drops_request c5Store 1 c5Req 7 rfl rfl

/-- C4: a SendFriendRequest whose target peer id has no user row creates a
placeholder user row (synthetic username "unknown_" ++ peer id, password
hash sentinel P2P_REMOTE_USER) instead of failing, and the pending
friendship row it inserts references that placeholder's local user id —
whatever the outcome of the subsequent stream send. -/
theorem c4_placeholder_created_for_unknown_peer (s : Storage.Store)
    (uid : Nat) (cu : Storage.User) (tp : String) (streamOk : Bool) (now : Nat)
    (h0 : uid ≠ 0)
    (h1 : tp ≠ cu.peerId)
    (h2 : Storage.GetUserByPeerID s tp = none)
    (h3 : Storage.GetUserByUsername s ("unknown_" ++ tp) = none)
    (h4 : Storage.GetFriendRequest s cu.id s.nextUserId = none) :
    ∃ u fr,
      Storage.GetUserByPeerID
        (Friends.SendFriendRequest s uid cu tp streamOk now).1 tp = some u ∧
      u.username = "unknown_" ++ tp ∧
      u.passwordHash = "P2P_REMOTE_USER" ∧
      Storage.GetFriendRequest
        (Friends.SendFriendRequest s uid cu tp streamOk now).1 cu.id u.id = some fr ∧
      fr.status = "pending" := by
  have hb0 : (uid == 0) = false := beq_eq_false_iff_ne.mpr h0
  have hb1 : (tp == cu.peerId) = false := beq_eq_false_iff_ne.mpr h1
  have hau : s.users.any (fun u => u.username == ("unknown_" ++ tp)) = false :=
    any_eq_false_of_find?_eq_none _ _ h3
  have hap : s.users.any (fun u => u.peerId == tp) = false :=
    any_eq_false_of_find?_eq_none _ _ h2
  have haf : s.friends.any
      (fun f => f.userId == cu.id && f.friendId == s.nextUserId) = false :=
    any_eq_false_of_find?_eq_none _ _ h4
  have h2f : s.users.find? (fun u => u.peerId == tp) = none := h2
  have h4f : s.friends.find?
      (fun f => f.userId == cu.id && f.friendId == s.nextUserId) = none := h4
  have hmain : (Friends.SendFriendRequest s uid cu tp streamOk now).1 =
      ⟨s.users ++ [⟨s.nextUserId, "unknown_" ++ tp, "P2P_REMOTE_USER",
          "Unknown User", tp, now, now⟩],
        s.friends ++ [⟨s.nextFriendId, cu.id, s.nextUserId, tp, "unknown_" ++ tp,
          "Unknown User", "pending", now, none⟩],
        s.messages, s.confMessages, s.nextUserId + 1, s.nextFriendId + 1,
        s.nextMessageId, s.nextConfMessageId⟩ := by
    simp only [Friends.SendFriendRequest, hb0, hb1, Bool.false_eq_true, if_false,
      h2, Storage.CreateUser, hau, hap, Storage.GetFriendRequest,
      Storage.CreateFriendRequest, haf, h4f]
    cases streamOk <;> rfl
  refine ⟨⟨s.nextUserId, "unknown_" ++ tp, "P2P_REMOTE_USER", "Unknown User", tp, now, now⟩,
    ⟨s.nextFriendId, cu.id, s.nextUserId, tp, "unknown_" ++ tp, "Unknown User",
      "pending", now, none⟩, ?_, rfl, rfl, ?_, rfl⟩
  · rw [hmain]
    simp only [Storage.GetUserByPeerID, List.find?_append, h2f, Option.none_or]
    simp
  · rw [hmain]
    simp only [Storage.GetFriendRequest, List.find?_append, h4f, Option.none_or]
    simp

/-- C4, witness: sending a friend request to the unknown peer PB from
alice's node creates the placeholder and the pending row referencing it. -/
theorem c4_placeholder_witness :
    ∃ u fr,
      Storage.GetUserByPeerID
        (Friends.SendFriendRequest c4Store 1 aliceU "PB" true 5).1 "PB" = some u ∧
      u.username = "unknown_" ++ "PB" ∧
      u.passwordHash = "P2P_REMOTE_USER" ∧
      Storage.GetFriendRequest
        (Friends.SendFriendRequest c4Store 1 aliceU "PB" true 5).1 aliceU.id u.id =
        some fr ∧
      fr.status = "pending" :=
  c4_placeholder_created_for_unknown_peer c4Store 1 aliceU "PB" true 5
    (by decide) (by decide) rfl rfl rfl

/-- C9: within a single SendMessage execution, any wire activity — the
stream-open attempt or the byte send — occurs strictly after the message
row was saved to the store: every such event in the trace is preceded by a
savedMessage event. -/
theorem c9_persist_precedes_wire
    (s : Storage.Store) (cu : Storage.User) (toUsername content : String)
    (pd c st sd : Bool) (now n : Nat) (e : Messages.SendEvent)
    (hg : ((Messages.SendMessage s cu toUsername content pd c st sd now).2.2).get? n =
      some e)
    (he : e = Messages.SendEvent.streamAttempt ∨
      ∃ k, e = Messages.SendEvent.sendAttempt k) :
    ∃ m k, m < n ∧
      ((Messages.SendMessage s cu toUsername content pd c st sd now).2.2).get? m =
        some (Messages.SendEvent.savedMessage k) := by
  have hshape :
      (Messages.SendMessage s cu toUsername content pd c st sd now).2.2 = [] ∨
      ∃ i t, (Messages.SendMessage s cu toUsername content pd c st sd now).2.2 =
        Messages.SendEvent.savedMessage i :: t := by
    unfold Messages.SendMessage
    cases Storage.GetUserByUsername s toUsername with
    | none => exact Or.inl rfl
    | some toUser =>
      dsimp only
      split
      · exact Or.inl rfl
      · split
        · exact Or.inr ⟨_, _, rfl⟩
        · split
          · exact Or.inr ⟨_, _, rfl⟩
          · split
            · exact Or.inr ⟨_, _, rfl⟩
            · split
              · exact Or.inr ⟨_, _, rfl⟩
              · exact Or.inr ⟨_, _, rfl⟩
  rcases hshape with h | ⟨i, t, h⟩
  · rw [h] at hg
    simp at hg
  · cases n with
    | zero =>
      rw [h] at hg
      simp only [List.get?] at hg
      rcases he with he | ⟨k, he⟩ <;> rw [he] at hg <;> exact absurd hg (by simp)
    | succ m2 =>
      exact ⟨0, i, Nat.succ_pos m2, by rw [h]; rfl⟩

/-- C9, witness: in the fully successful concrete send, the stream attempt
sits at index 1 of the trace and is preceded by the save at index 0. -/
theorem c9_witness :
    ((Messages.SendMessage msgStore aliceU "bob" "hi" true true true true 9).2.2).get? 1 =
      some Messages.SendEvent.streamAttempt ∧
    ∃ m k, m < 1 ∧
      ((Messages.SendMessage msgStore aliceU "bob" "hi" true true true true 9).2.2).get? m =
        some (Messages.SendEvent.savedMessage k) :=
  ⟨rfl, c9_persist_precedes_wire msgStore aliceU "bob" "hi" true true true true 9 1
    Messages.SendEvent.streamAttempt rfl (Or.inl rfl)⟩

/-- A successful Register leaves the store with exactly one appended user
row carrying the node's peer id, and implies the peer id was nonempty. -/
theorem register_ok_shape (s s1 : Storage.Store) (u p n pid : String)
    (hash : String → String) (t : Nat)
    (h : Auth.Register s u p n pid hash t = .ok s1) :
    (pid == "") = false ∧
    s1.users = s.users ++ [⟨s.nextUserId, u, hash p, n, pid, t, t⟩] := by
  unfold Auth.Register at h
  split at h
  · simp at h
  split at h
  · simp at h
  split at h
  · simp at h
  split at h
  · simp at h
  split at h
  · simp at h
  rename_i h1 h2 h3 h4 h5
  split at h
  · simp at h
  rename_i hnone
  unfold Storage.CreateUser at h
  split at h
  rotate_left
  · simp at h
  rename_i s1x tx heq
  simp only [Except.ok.injEq] at h
  subst h
  split at heq
  · simp at heq
  split at heq
  · simp at heq
  simp only [Except.ok.injEq, Prod.mk.injEq] at heq
  obtain ⟨hs, -⟩ := heq
  refine ⟨by simpa using h5, ?_⟩
  rw [← hs]

/-- C10: Register always stores the node's current peer id, and the users
table is unique on peer_id, so once Register(u1, ...) succeeded on a node,
a later otherwise-valid Register(u2, ...) with u2 ≠ u1 on the same node
(same peer id) fails with the uniqueness violation on peer_id. -/
theorem c10_second_register_hits_peerid_unique
    (s s1 : Storage.Store) (u1 p1 n1 u2 p2 n2 pid : String)
    (hash1 hash2 : String → String) (t1 t2 : Nat)
    (hreg : Auth.Register s u1 p1 n1 pid hash1 t1 = .ok s1)
    (hne : u2 ≠ u1)
    (hu2 : u2 ≠ "") (hp2 : p2 ≠ "") (hl2 : ¬ p2.length < 8) (hn2 : n2 ≠ "")
    (hfresh : Storage.GetUserByUsername s1 u2 = none) :
    Auth.Register s1 u2 p2 n2 pid hash2 t2 =
      .error (Auth.RegisterError.db Storage.DbError.uniquePeerId) := by
  obtain ⟨hpid, hs1⟩ := register_ok_shape s s1 u1 p1 n1 pid hash1 t1 hreg
  have hbu2 : (u2 == "") = false := beq_eq_false_iff_ne.mpr hu2
  have hbp2 : (p2 == "") = false := beq_eq_false_iff_ne.mpr hp2
  have hbn2 : (n2 == "") = false := beq_eq_false_iff_ne.mpr hn2
  have hau : s1.users.any (fun u => u.username == u2) = false :=
    any_eq_false_of_find?_eq_none _ _ hfresh
  have hap : s1.users.any (fun u => u.peerId == pid) = true := by
    rw [hs1]
    simp [List.any_append]
  simp only [Auth.Register, hbu2, hbp2, hbn2, hpid, Bool.false_eq_true, if_false,
    if_neg hl2, hfresh, Storage.CreateUser, hau, hap, if_true]

/-- C10, witness: registering "alice" on peer P succeeds; registering
"bob" on the same node then fails with the peer_id uniqueness violation. -/
theorem c10_witness :
    Auth.Register emptyStore "alice" "password1" "Alice S" "P" (fun x => x) 0 =
      .ok c10S1 ∧
    Auth.Register c10S1 "bob" "password2" "Bob" "P" (fun x => x) 1 =
      .error (Auth.RegisterError.db Storage.DbError.uniquePeerId) :=
  ⟨rfl, c10_second_register_hits_peerid_unique emptyStore c10S1 "alice" "password1"
    "Alice S" "bob" "password2" "Bob" "P" (fun x => x) (fun x => x) 0 1 rfl
    (by decide) (by decide) (by decide) (by decide) (by decide) rfl⟩


/-- C1: when the friend/accept handler runs with a session user `uid`, and
the upsert resolves the accepting peer, then if the pending uid→accepter
row exists it is transitioned to accepted with accepted_at = now, and the
absent reciprocal accepter→uid row is inserted as accepted — afterwards
both directed rows exist with status accepted. -/
theorem c1_accept_establishes_both_accepted_rows
    (s s1 : Storage.Store) (uid : Nat) (resp : Friends.FriendResponseMessage)
    (now : Nat) (accepter cu : Storage.User) (f : Storage.Friend)
    (h0 : uid ≠ 0)
    (h1 : Friends.upsertAccepter s resp now = some (s1, accepter))
    (h2 : Storage.GetUserByID s1 uid = some cu)
    (h3 : Storage.GetFriendRequest s1 uid accepter.id = some f)
    (h4 : f.status = "pending")
    (h5 : Storage.GetFriendRequest s1 accepter.id uid = none) :
    (∃ r, Storage.GetFriendRequest (Friends.handleIncomingAccept s uid resp now)
        uid accepter.id = some r ∧ r.status = "accepted" ∧ r.acceptedAt = some now) ∧
    (∃ r, Storage.GetFriendRequest (Friends.handleIncomingAccept s uid resp now)
        accepter.id uid = some r ∧ r.status = "accepted") := by
  have hb0 : (uid == 0) = false := beq_eq_false_iff_ne.mpr h0
  have hf : (f.status == "pending") = true := by simp [h4]
  have hg1 : Storage.GetFriendRequest
      (Storage.UpdateFriendRequest s1 { f with status := "accepted", acceptedAt := some now })
      uid accepter.id = some { f with status := "accepted", acceptedAt := some now } := by
    rw [getFriendRequest_updateFriendRequest, h3]
    simp
  have hg2 : Storage.GetFriendRequest
      (Storage.UpdateFriendRequest s1 { f with status := "accepted", acceptedAt := some now })
      accepter.id uid = none := by
    rw [getFriendRequest_updateFriendRequest, h5]
    rfl
  have haf : (Storage.UpdateFriendRequest s1
      { f with status := "accepted", acceptedAt := some now }).friends.any
      (fun r => r.userId == accepter.id && r.friendId == uid) = false :=
    any_eq_false_of_find?_eq_none _ _ hg2
  have hrun : Friends.handleIncomingAccept s uid resp now =
      { (Storage.UpdateFriendRequest s1 { f with status := "accepted", acceptedAt := some now }) with
        friends := (Storage.UpdateFriendRequest s1
          { f with status := "accepted", acceptedAt := some now }).friends ++
          [⟨s1.nextFriendId, accepter.id, uid, accepter.peerId, accepter.username,
            accepter.fullName, "accepted", now, none⟩],
        nextFriendId := s1.nextFriendId + 1 } := by
    unfold Friends.handleIncomingAccept
    rw [h1]
    simp only [hb0, Bool.false_eq_true, if_false, h2, h3, hf, if_true, hg2,
      Storage.CreateFriendRequest, haf]
    rfl
  have hg1f : (Storage.UpdateFriendRequest s1
      { f with status := "accepted", acceptedAt := some now }).friends.find?
      (fun r => r.userId == uid && r.friendId == accepter.id) =
      some { f with status := "accepted", acceptedAt := some now } := hg1
  have hg2f : (Storage.UpdateFriendRequest s1
      { f with status := "accepted", acceptedAt := some now }).friends.find?
      (fun r => r.userId == accepter.id && r.friendId == uid) = none := hg2
  constructor
  · refine ⟨{ f with status := "accepted", acceptedAt := some now }, ?_, rfl, rfl⟩
    rw [hrun]
    simp only [Storage.GetFriendRequest]
    rw [List.find?_append, hg1f]
    rfl
  · refine ⟨⟨s1.nextFriendId, accepter.id, uid, accepter.peerId, accepter.username,
      accepter.fullName, "accepted", now, none⟩, ?_, rfl⟩
    rw [hrun]
    simp only [Storage.GetFriendRequest]
    rw [List.find?_append, hg2f]
    simp

/-- C1, witness: on alice's node holding a pending alice→bob row, bob's
accept message establishes both accepted rows. -/
theorem c1_accept_witness :
    (∃ r, Storage.GetFriendRequest (Friends.handleIncomingAccept c1Store 1 c1Resp 5)
        1 bobRemoteU.id = some r ∧ r.status = "accepted" ∧ r.acceptedAt = some 5) ∧
    (∃ r, Storage.GetFriendRequest (Friends.handleIncomingAccept c1Store 1 c1Resp 5)
        bobRemoteU.id 1 = some r ∧ r.status = "accepted") :=
  c1_accept_establishes_both_accepted_rows c1Store c1Store 1 c1Resp 5 bobRemoteU
    aliceU pendingAB (by decide) rfl rfl rfl rfl rfl
